import Mathlib

/-!
Shallow embedding of the `Multifights/sdk-nestjs-redis` caching facade.

The repository is a typed caching facade (`RedisService` in
`src/redis.service.ts`) over an external Redis client, plus two helpers
(`transformArrayToRedisHash`, `recordToArray`).  We embed:

* JSON-like application values (`JVal`), with the JS distinction between
  `undefined` (modelled as `Option.none`) and `null` (`JVal.null`);
* the external Redis client as a record of state-threading operations that
  may raise (`Except Err`), mirroring the `ioredis` calls the facade makes;
* the platform JSON serializer (`JSON.stringify` / `JSON.parse`) as an
  abstract `Codec` — it is an external collaborator, the spec only demands
  round-trip fidelity of it;
* each facade method as a Lean function threading the store state and
  collecting the log entries emitted through the injected logger.

Exceptions raised by the client are values of `Err`; the JS guard
`error instanceof Error` that most catch blocks perform is modelled by the
`Err.isError` flag.
-/

set_option maxHeartbeats 1000000

namespace SdkNestjsRedis

/-- JSON-representable values.  `undefined` is not a `JVal`; where the source
distinguishes it we use `Option JVal` with `none` standing for `undefined`. -/
inductive JVal where
  | null : JVal
  | bool (b : Bool) : JVal
  | num (n : Int) : JVal
  | str (s : String) : JVal
  | arr (elems : List JVal) : JVal
  | obj (fields : List (String × JVal)) : JVal

/-- JS dynamic field access `element[key]` on a `JVal`; `none` models the
`undefined` a missing property yields. -/
def JVal.getField (v : JVal) (key : String) : Option JVal :=
  match v with
  | .obj fields => fields.lookup key
  | _ => none

/-- `true` exactly on `JVal.null`. -/
def JVal.isNull (v : JVal) : Bool :=
  match v with
  | .null => true
  | _ => false

/-- A JS throwable caught by the facade: `isError` models the
`error instanceof Error` test and `str` models `error?.toString()`. -/
structure Err where
  isError : Bool
  str : String
  deriving DecidableEq, Repr

/-- The metadata values the facade puts in its structured log objects. -/
inductive MetaVal where
  | s (v : String) : MetaVal
  | list (vs : List String) : MetaVal
  | jv (v : Option JVal) : MetaVal

/-- One call to `this.logger.error(message, metadata)`. -/
structure LogEntry where
  message : String
  meta : List (String × MetaVal)

abbrev Logs := List LogEntry

/-- JS loose equality `value == null`, true for both `null` and `undefined`. -/
def isNullish (v : Option JVal) : Bool :=
  match v with
  | none => true
  | some w => w.isNull

/-- The platform JSON codec (`JSON.stringify` / `JSON.parse`), an external
collaborator of the facade.  `deser` may raise, as `JSON.parse` does. -/
structure Codec where
  ser : JVal → String
  deser : String → Except Err JVal

/-- The external Redis client capability, state-threading over a store state
`σ`.  Each operation returns its reply or a raised exception, together with
the successor store state.  `set` takes the optional expiry seconds covering
both call shapes of `redis.set`; `hset` takes `Option String` because
`JSON.stringify(undefined)` is `undefined`, not a string. -/
structure RedisClient (σ : Type) where
  get : σ → String → Except Err (Option String) × σ
  set : σ → String → String → Option Int → Except Err Unit × σ
  del : σ → List String → Except Err Nat × σ
  scan : σ → String → String → Except Err (String × List String) × σ
  hget : σ → String → String → Except Err (Option String) × σ
  hmget : σ → String → List String → Except Err (List (Option String)) × σ
  hgetall : σ → String → Except Err (Option (List (String × String))) × σ
  hset : σ → String → String → Option String → Except Err Nat × σ
  hmset : σ → String → List String → Except Err Unit × σ
  hdel : σ → String → List String → Except Err Nat × σ
  expire : σ → String → Int → Except Err Nat × σ
  ttl : σ → String → Except Err Int × σ

/-- Result of one facade call: the returned value, the log entries emitted
during the call, and the store state afterwards. -/
structure Out (α : Type) (σ : Type) where
  res : α
  logs : Logs
  st : σ

/-- Most catch blocks log only under `error instanceof Error`. -/
def ifErrLog (e : Err) (entry : LogEntry) : Logs :=
  if e.isError then [entry] else []

section Facade

variable {σ : Type} (c : RedisClient σ) (codec : Codec)

/-- `RedisService.get`: fetch raw text, return the parsed value when the text
is truthy (non-empty), `undefined` otherwise; any failure is caught, logged
(no `instanceof` guard here) and converted to `undefined`. -/
def RedisService.get (s : σ) (key : String) : Out (Option JVal) σ :=
  match c.get s key with
  | (.error e, s') =>
      ⟨none,
       [⟨"RedisCache - An error occurred while trying to get from redis cache.",
         [("cacheKey", .s key), ("error", .s e.str)]⟩], s'⟩
  | (.ok none, s') => ⟨none, [], s'⟩
  | (.ok (some data), s') =>
      if data = "" then ⟨none, [], s'⟩
      else
        match codec.deser data with
        | .ok v => ⟨some v, [], s'⟩
        | .error e =>
            ⟨none,
             [⟨"RedisCache - An error occurred while trying to get from redis cache.",
               [("cacheKey", .s key), ("error", .s e.str)]⟩], s'⟩

/-- `true` when a provided ttl is `≤ 0` (the `typeof ttl === 'number' && ttl <= 0`
guard); a `null` ttl does not trigger it. -/
def ttlNonPos (ttl : Option Int) : Bool :=
  match ttl with
  | some t => t ≤ 0
  | none => false

/-- `RedisService.set`: no-op on `undefined`, on a non-nullable nullish value
and on a provided ttl `≤ 0`; otherwise serialize and write (with expiry iff a
ttl was given), catching, logging (guarded) and returning `undefined` on
failure.  `some ()` models the `'OK'` reply. -/
def RedisService.set (s : σ) (key : String) (value : Option JVal)
    (ttl : Option Int) (cacheNullable : Bool) : Out (Option Unit) σ :=
  match value with
  | none => ⟨none, [], s⟩
  | some jv =>
      if !cacheNullable && jv.isNull then ⟨none, [], s⟩
      else if ttlNonPos ttl then ⟨none, [], s⟩
      else
        match c.set s key (codec.ser jv) ttl with
        | (.ok _, s') => ⟨some (), [], s'⟩
        | (.error e, s') =>
            ⟨none,
             ifErrLog e
               ⟨"RedisCache - An error occurred while trying to set in redis cache.",
                 [("cacheKey", .s key), ("error", .s e.str)]⟩, s'⟩

/-- `RedisService.delete`: `redis.del(key)`; on failure log (guarded) and
return 0. -/
def RedisService.delete (s : σ) (key : String) : Out Nat σ :=
  match c.del s [key] with
  | (.ok n, s') => ⟨n, [], s'⟩
  | (.error e, s') =>
      ⟨0,
       ifErrLog e
         ⟨"RedisCache - An error occurred while trying to delete from redis cache.",
           [("cacheKey", .s key), ("error", .s e.str)]⟩, s'⟩

/-- `RedisService.deleteMany`: `redis.del(keys)`; on failure log (guarded,
and with no key metadata) and return 0. -/
def RedisService.deleteMany (s : σ) (keys : List String) : Out Nat σ :=
  match c.del s keys with
  | (.ok n, s') => ⟨n, [], s'⟩
  | (.error e, s') =>
      ⟨0,
       ifErrLog e
         ⟨"An error occurred while trying to delete multiple keys from redis cache.",
           [("error", .s e.str)]⟩, s'⟩

/-- `RedisService.getOrSet`: return the cached value when `get` yields one,
else `set` (result discarded) and return the supplied value. -/
def RedisService.getOrSet (s : σ) (key : String) (value : Option JVal)
    (ttl : Int) (cacheNullable : Bool) : Out (Option JVal) σ :=
  let g := RedisService.get c codec s key
  match g.res with
  | some cached => ⟨some cached, g.logs, g.st⟩
  | none =>
      let w := RedisService.set c codec g.st key value (some ttl) cacheNullable
      ⟨value, g.logs ++ w.logs, w.st⟩

/-- The body of `RedisService.scan`, an unbounded `do … while (cursor !== '0')`
loop, embedded with explicit fuel: `none` means the loop would still be
running after `fuel` round trips.  Errors are not caught (scan has no
try/catch) and abort the loop. -/
def scanLoop (pattern : String) : Nat → σ → String → List String →
    Option (Except Err (List String) × σ)
  | 0, _, _, _ => none
  | fuel + 1, s, cursor, found =>
      match c.scan s cursor pattern with
      | (.error e, s') => some (.error e, s')
      | (.ok (next, keys), s') =>
          if next = "0" then some (.ok (found ++ keys), s')
          else scanLoop pattern fuel s' next (found ++ keys)

/-- `RedisService.scan`: run the cursor loop from the initial cursor `"0"`
with an empty accumulator. -/
def RedisService.scan (fuel : Nat) (s : σ) (pattern : String) :
    Option (Except Err (List String) × σ) :=
  scanLoop c pattern fuel s "0" []

/-- `RedisService.hget`: like `get` keyed by (hash, field); the catch block
logs only `instanceof Error` failures. -/
def RedisService.hget (s : σ) (hash field : String) : Out (Option JVal) σ :=
  match c.hget s hash field with
  | (.error e, s') =>
      ⟨none,
       ifErrLog e
         ⟨"An error occurred while trying to hget from redis.",
           [("hash", .s hash), ("field", .s field), ("exception", .s e.str)]⟩, s'⟩
  | (.ok none, s') => ⟨none, [], s'⟩
  | (.ok (some data), s') =>
      if data = "" then ⟨none, [], s'⟩
      else
        match codec.deser data with
        | .ok v => ⟨some v, [], s'⟩
        | .error e =>
            ⟨none,
             ifErrLog e
               ⟨"An error occurred while trying to hget from redis.",
                 [("hash", .s hash), ("field", .s field), ("exception", .s e.str)]⟩, s'⟩

/-- The `results.map` body of `hmget`: parse each present slot left to right,
keep `null` slots as `null`; the first `JSON.parse` failure aborts. -/
def deserSlots : List (Option String) → Except Err (List (Option JVal))
  | [] => .ok []
  | none :: rest => (deserSlots rest).map (fun vs => none :: vs)
  | some txt :: rest =>
      match codec.deser txt with
      | .error e => .error e
      | .ok v => (deserSlots rest).map (fun vs => some v :: vs)

/-- `RedisService.hmget`: fetch all fields in one call; each absent field
yields a `null` slot; any failure (store or parse) is caught, logged
(guarded) and converted to the empty sequence, which is also returned when
the reply is empty. -/
def RedisService.hmget (s : σ) (hash : String) (fields : List String) :
    Out (List (Option JVal)) σ :=
  match c.hmget s hash fields with
  | (.error e, s') =>
      ⟨[],
       ifErrLog e
         ⟨"An error occurred while trying to hget from redis.",
           [("hash", .s hash), ("fields", .list fields), ("exception", .s e.str)]⟩, s'⟩
  | (.ok results, s') =>
      if results.length > 0 then
        match deserSlots codec results with
        | .ok vs => ⟨vs, [], s'⟩
        | .error e =>
            ⟨[],
             ifErrLog e
               ⟨"An error occurred while trying to hget from redis.",
                 [("hash", .s hash), ("fields", .list fields), ("exception", .s e.str)]⟩, s'⟩
      else ⟨[], [], s'⟩

/-- The `for (const key of Object.keys(data))` body of `hgetall`: parse every
field value; the first `JSON.parse` failure aborts. -/
def deserPairs : List (String × String) → Except Err (List (String × JVal))
  | [] => .ok []
  | (k, txt) :: rest =>
      match codec.deser txt with
      | .error e => .error e
      | .ok v => (deserPairs rest).map (fun ps => (k, v) :: ps)

/-- `RedisService.hgetall`: fetch and parse the whole hash; a falsy reply or
any failure yields `undefined` (failures logged, guarded). -/
def RedisService.hgetall (s : σ) (hash : String) :
    Out (Option (List (String × JVal))) σ :=
  match c.hgetall s hash with
  | (.error e, s') =>
      ⟨none,
       ifErrLog e
         ⟨"An error occurred while trying to hgetall from redis.",
           [("hash", .s hash), ("exception", .s e.str)]⟩, s'⟩
  | (.ok none, s') => ⟨none, [], s'⟩
  | (.ok (some data), s') =>
      match deserPairs codec data with
      | .ok pairs => ⟨some pairs, [], s'⟩
      | .error e =>
          ⟨none,
           ifErrLog e
             ⟨"An error occurred while trying to hgetall from redis.",
               [("hash", .s hash), ("exception", .s e.str)]⟩, s'⟩

/-- `RedisService.hset`: return 0 without touching the store on a
non-nullable nullish value; otherwise write one serialized field and return
the store reply; a failure is logged (guarded) and re-raised. -/
def RedisService.hset (s : σ) (hash field : String) (value : Option JVal)
    (cacheNullable : Bool) : Out (Except Err Nat) σ :=
  if !cacheNullable && isNullish value then ⟨.ok 0, [], s⟩
  else
    match c.hset s hash field (value.map codec.ser) with
    | (.ok n, s') => ⟨.ok n, [], s'⟩
    | (.error e, s') =>
        ⟨.error e,
         ifErrLog e
           ⟨"An error occurred while trying to hset in redis.",
             [("hash", .s hash), ("field", .s field), ("value", .jv value),
              ("exception", .s e.str)]⟩, s'⟩

/-- `RedisService.hmset`: bulk-write pre-encoded flat field/value pairs; a
failure is logged (guarded) and re-raised.  `.ok ()` models `'OK'`. -/
def RedisService.hmset (s : σ) (hash : String) (values : List String) :
    Out (Except Err Unit) σ :=
  match c.hmset s hash values with
  | (.ok _, s') => ⟨.ok (), [], s'⟩
  | (.error e, s') =>
      ⟨.error e,
       ifErrLog e
         ⟨"An error occurred while trying to hset in redis.",
           [("hash", .s hash), ("values", .list values), ("exception", .s e.str)]⟩, s'⟩

/-- `RedisService.hdel`: remove fields from a hash; a failure is logged
(guarded) and re-raised. -/
def RedisService.hdel (s : σ) (hash : String) (fields : List String) :
    Out (Except Err Nat) σ :=
  match c.hdel s hash fields with
  | (.ok n, s') => ⟨.ok n, [], s'⟩
  | (.error e, s') =>
      ⟨.error e,
       ifErrLog e
         ⟨"An error occurred while trying to hdel in redis.",
           [("hash", .s hash), ("fields", .list fields), ("exception", .s e.str)]⟩, s'⟩

/-- `RedisService.expire`: pass-through, no local error handling. -/
def RedisService.expire (s : σ) (key : String) (ttl : Int) :
    Except Err Nat × σ :=
  c.expire s key ttl

/-- `RedisService.ttl`: pass-through, no local error handling. -/
def RedisService.ttl (s : σ) (key : String) : Except Err Int × σ :=
  c.ttl s key

end Facade

/-- Helper `transformArrayToRedisHash` (bulk hash encoder): for each record
push the dynamic field `element[key]` (any JS value, possibly `undefined`)
and then `JSON.stringify(element)`.  Output slots are JS values: a stringify
result appears as `some (JVal.str …)`. -/
def transformArrayToRedisHash (ser : JVal → String) :
    List JVal → String → List (Option JVal)
  | [], _ => []
  | element :: rest, key =>
      element.getField key :: some (.str (ser element)) ::
        transformArrayToRedisHash ser rest key

/-- Helper `recordToArray`: project a record to the list of its values in
field order. -/
def recordToArray (data : List (String × JVal)) : List JVal :=
  data.map (fun p => p.2)

/-! ### A reference in-memory Store Client

A correct, never-raising model of the external store over a plain
association list from keys to stored text, used to state the claims that
relate `set` and `get` through the store state.  Hash and scan operations
are stubbed with benign replies; the claims about them quantify over
arbitrary clients instead. -/

/-- Stored text under a key, `none` when the key is absent. -/
def lookupKV (s : List (String × String)) (k : String) : Option String :=
  s.lookup k

/-- Store text under a key, replacing any previous binding. -/
def insertKV (s : List (String × String)) (k v : String) :
    List (String × String) :=
  (k, v) :: s.filter (fun p => p.1 ≠ k)

/-- Remove keys; reply with how many were present. -/
def removeKV (s : List (String × String)) (ks : List String) :
    List (String × String) :=
  s.filter (fun p => p.1 ∉ ks)

/-- The reference in-memory store client. -/
def memClient : RedisClient (List (String × String)) where
  get s k := (.ok (lookupKV s k), s)
  set s k v _ := (.ok (), insertKV s k v)
  del s ks := (.ok ((ks.filter (fun k => (lookupKV s k).isSome)).length), removeKV s ks)
  scan s _ _ := (.ok ("0", []), s)
  hget s _ _ := (.ok none, s)
  hmget s _ fields := (.ok (fields.map (fun _ => none)), s)
  hgetall s _ := (.ok (some []), s)
  hset s _ _ _ := (.ok 1, s)
  hmset s _ _ := (.ok (), s)
  hdel s _ _ := (.ok 0, s)
  expire s _ _ := (.ok 1, s)
  ttl s _ := (.ok (-1), s)

/-! ### Cursor chains for `scan`

For the scan claim the store is presented as a pure page function
`f : cursor → pattern → (nextCursor, keys)`, wrapped as a client. -/

/-- A client whose `scan` answers from the page function `f` and never
raises; other operations are benign stubs. -/
def pageClient (f : String → String → String × List String) :
    RedisClient Unit where
  get s _ := (.ok none, s)
  set s _ _ _ := (.ok (), s)
  del s _ := (.ok 0, s)
  scan s cursor pattern := (.ok (f cursor pattern), s)
  hget s _ _ := (.ok none, s)
  hmget s _ fields := (.ok (fields.map (fun _ => none)), s)
  hgetall s _ := (.ok (some []), s)
  hset s _ _ _ := (.ok 1, s)
  hmset s _ _ := (.ok (), s)
  hdel s _ _ := (.ok 0, s)
  expire s _ _ := (.ok 1, s)
  ttl s _ := (.ok (-1), s)

/-- The cursor reached after `n` pages, starting from the initial cursor
`"0"`. -/
def cursorAt (f : String → String → String × List String) (pattern : String) :
    Nat → String
  | 0 => "0"
  | n + 1 => (f (cursorAt f pattern n) pattern).1

/-- Concatenation, in page order, of the key lists of pages
`j, j+1, …, j+k-1`. -/
def pagesFrom (f : String → String → String × List String) (pattern : String) :
    Nat → Nat → List String
  | _, 0 => []
  | j, k + 1 =>
      (f (cursorAt f pattern j) pattern).2 ++ pagesFrom f pattern (j + 1) k

/-! ### Concrete instances for evaluating the theorems -/

/-- A small stand-in for the platform JSON codec, used to evaluate the
theorems on concrete inputs.  It is faithful (round-tripping, non-empty
output) on the atoms the witnesses use. -/
def simpleCodec : Codec where
  ser v :=
    match v with
    | .null => "null"
    | .bool true => "true"
    | .bool false => "false"
    | .num n => toString n
    | .str s => "\x22" ++ s ++ "\x22"
    | .arr _ => "[...]"
    | .obj _ => "\x7b...\x7d"
  deser s :=
    if s = "null" then .ok .null
    else if s = "true" then .ok (.bool true)
    else if s = "false" then .ok (.bool false)
    else if s = "1" then .ok (.num 1)
    else if s = "2" then .ok (.num 2)
    else .error ⟨true, "SyntaxError: Unexpected token"⟩

/-- A concrete `Error`-instance throwable. -/
def boom : Err := ⟨true, "Error: boom"⟩

/-- A client whose every operation raises `boom` without touching state. -/
def boomClient : RedisClient Unit where
  get s _ := (.error boom, s)
  set s _ _ _ := (.error boom, s)
  del s _ := (.error boom, s)
  scan s _ _ := (.error boom, s)
  hget s _ _ := (.error boom, s)
  hmget s _ _ := (.error boom, s)
  hgetall s _ := (.error boom, s)
  hset s _ _ _ := (.error boom, s)
  hmset s _ _ := (.error boom, s)
  hdel s _ _ := (.error boom, s)
  expire s _ _ := (.error boom, s)
  ttl s _ := (.error boom, s)

/-- The 3-page cursor chain of the spec example:
`"0" → "17" → "42" → "0"`. -/
def scanPages3 : String → String → String × List String :=
  fun cursor _ =>
    if cursor = "0" then ("17", ["a", "b"])
    else if cursor = "17" then ("42", ["c"])
    else if cursor = "42" then ("0", ["d", "e"])
    else ("0", [])

/-- The bulk hash encoding as the spec words it: the flat alternating
sequence of each record's key field followed by its serialization. -/
def specHashBulkEncode (ser : JVal → String) (values : List JVal)
    (key : String) : List (Option JVal) :=
  values.flatMap (fun r => [r.getField key, some (.str (ser r))])

/-- The record `\x7bid:"x", v:1\x7d` of the spec example. -/
def sampleRec1 : JVal := .obj [("id", .str "x"), ("v", .num 1)]

/-- The record `\x7bid:"y", v:2\x7d` of the spec example. -/
def sampleRec2 : JVal := .obj [("id", .str "y"), ("v", .num 2)]

/-! ## Theorems -/

/-- C10: when the store reports the key as present with empty stored text,
`get` returns `undefined` (with no log entry), for every codec — the text is
never handed to the deserializer, exactly as for a missing key. -/
theorem c10_get_empty_text_absent {σ : Type} (c : RedisClient σ)
    (codec : Codec) (s : σ) (key : String)
    (h : (c.get s key).1 = .ok (some "")) :
    (RedisService.get c codec s key).res = none ∧
    (RedisService.get c codec s key).logs = [] := by
  rcases hc : c.get s key with ⟨r, s2⟩
  rw [hc] at h
  simp only at h
  subst h
  simp [RedisService.get, hc]

/-- C10 witness: a store holding the empty string under `"k"`. -/
theorem c10_witness :
    ((memClient.get [("k", "")] "k").1 = .ok (some "")) ∧
    (RedisService.get memClient simpleCodec [("k", "")] "k").res = none := by
  refine ⟨rfl, ?_⟩
  exact (c10_get_empty_text_absent memClient simpleCodec [("k", "")] "k" rfl).1

/-- C3: `getOrSet` returns the cached value when `get` yields one, and the
supplied value otherwise — the latter holds for every client and state, in
particular whatever the internal `set` did (succeeded, policy no-op, or
failed). -/
theorem c3_getOrSet_default_delivery {σ : Type} (c : RedisClient σ)
    (codec : Codec) (s : σ) (key : String) (value : Option JVal)
    (ttl : Int) (cacheNullable : Bool) :
    (∀ w, (RedisService.get c codec s key).res = some w →
      (RedisService.getOrSet c codec s key value ttl cacheNullable).res = some w) ∧
    ((RedisService.get c codec s key).res = none →
      (RedisService.getOrSet c codec s key value ttl cacheNullable).res = value) := by
  constructor
  · intro w h
    simp [RedisService.getOrSet, h]
  · intro h
    simp [RedisService.getOrSet, h]

/-- C3 witness: a cache hit returns the cached value; a miss against a
client whose writes fail still returns the supplied value. -/
theorem c3_witness :
    (RedisService.getOrSet memClient simpleCodec [("k", "1")] "k"
        (some .null) 5 true).res = some (.num 1) ∧
    (RedisService.getOrSet boomClient simpleCodec () "k"
        (some (.bool true)) 5 true).res = some (.bool true) := by
  constructor
  · exact (c3_getOrSet_default_delivery memClient simpleCodec [("k", "1")] "k"
      (some .null) 5 true).1 (.num 1) rfl
  · exact (c3_getOrSet_default_delivery boomClient simpleCodec () "k"
      (some (.bool true)) 5 true).2 rfl

/-- C1: when the store client raises during `get`, `set`, `delete`,
`deleteMany`, `hget`, `hmget` or `hgetall`, the facade method returns its
sentinel instead of propagating: `undefined` for `get`, `set`, `hget` and
`hgetall`, the empty sequence for `hmget`, and 0 for `delete` and
`deleteMany` — for every key, value, ttl and cacheNullable argument and
every throwable. -/
theorem c1_fail_soft_isolation {σ : Type} (c : RedisClient σ) (codec : Codec)
    (s : σ) (key hash field : String) (keys fields : List String)
    (value : Option JVal) (ttl : Option Int) (cacheNullable : Bool) (e : Err) :
    ((c.get s key).1 = .error e →
      (RedisService.get c codec s key).res = none) ∧
    ((∀ text exp, (c.set s key text exp).1 = .error e) →
      (RedisService.set c codec s key value ttl cacheNullable).res = none) ∧
    ((c.del s [key]).1 = .error e →
      (RedisService.delete c s key).res = 0) ∧
    ((c.del s keys).1 = .error e →
      (RedisService.deleteMany c s keys).res = 0) ∧
    ((c.hget s hash field).1 = .error e →
      (RedisService.hget c codec s hash field).res = none) ∧
    ((c.hmget s hash fields).1 = .error e →
      (RedisService.hmget c codec s hash fields).res = []) ∧
    ((c.hgetall s hash).1 = .error e →
      (RedisService.hgetall c codec s hash).res = none) := by
  refine ⟨?_, ?_, ?_, ?_, ?_, ?_, ?_⟩
  · intro h
    rcases hc : c.get s key with ⟨r, s2⟩
    rw [hc] at h
    simp only at h
    subst h
    simp [RedisService.get, hc]
  · intro h
    rcases value with _ | jv
    · rfl
    · rcases hc : c.set s key (codec.ser jv) ttl with ⟨r, s2⟩
      have := h (codec.ser jv) ttl
      rw [hc] at this
      simp only at this
      subst this
      simp [RedisService.set, hc]
      split_ifs <;> rfl
  · intro h
    rcases hc : c.del s [key] with ⟨r, s2⟩
    rw [hc] at h
    simp only at h
    subst h
    simp [RedisService.delete, hc]
  · intro h
    rcases hc : c.del s keys with ⟨r, s2⟩
    rw [hc] at h
    simp only at h
    subst h
    simp [RedisService.deleteMany, hc]
  · intro h
    rcases hc : c.hget s hash field with ⟨r, s2⟩
    rw [hc] at h
    simp only at h
    subst h
    simp [RedisService.hget, hc]
  · intro h
    rcases hc : c.hmget s hash fields with ⟨r, s2⟩
    rw [hc] at h
    simp only at h
    subst h
    simp [RedisService.hmget, hc]
  · intro h
    rcases hc : c.hgetall s hash with ⟨r, s2⟩
    rw [hc] at h
    simp only at h
    subst h
    simp [RedisService.hgetall, hc]

/-- C1 witness: a client that raises on every call yields the sentinels. -/
theorem c1_witness :
    (RedisService.get boomClient simpleCodec () "k").res = none ∧
    (RedisService.set boomClient simpleCodec () "k" (some .null) (some 5) true).res = none ∧
    (RedisService.delete boomClient () "k").res = 0 ∧
    (RedisService.deleteMany boomClient () ["k1", "k2"]).res = 0 ∧
    (RedisService.hget boomClient simpleCodec () "h" "f").res = none ∧
    (RedisService.hmget boomClient simpleCodec () "h" ["f1", "f2"]).res = [] ∧
    (RedisService.hgetall boomClient simpleCodec () "h").res = none := by
  have h := c1_fail_soft_isolation boomClient simpleCodec () "k" "h" "f"
    ["k1", "k2"] ["f1", "f2"] (some .null) (some 5) true boom
  exact ⟨h.1 rfl, h.2.1 (fun _ _ => rfl), h.2.2.1 rfl, h.2.2.2.1 rfl,
    h.2.2.2.2.1 rfl, h.2.2.2.2.2.1 rfl, h.2.2.2.2.2.2 rfl⟩

/-- C2: `hset`, `hmset` and `hdel` propagate the underlying store result
verbatim — they raise exactly the exception the store call raises, and
return its reply otherwise — except that `hset` returns 0 without a store
call when `cacheNullable` is false and the value is nullish. -/
theorem c2_fail_hard_hash_mutations {σ : Type} (c : RedisClient σ)
    (codec : Codec) (s : σ) (hash field : String) (value : Option JVal)
    (cacheNullable : Bool) (values fields : List String) :
    ((!cacheNullable && isNullish value) = true →
      RedisService.hset c codec s hash field value cacheNullable = ⟨.ok 0, [], s⟩) ∧
    ((!cacheNullable && isNullish value) = false →
      (RedisService.hset c codec s hash field value cacheNullable).res =
        (c.hset s hash field (value.map codec.ser)).1) ∧
    ((RedisService.hmset c s hash values).res = (c.hmset s hash values).1) ∧
    ((RedisService.hdel c s hash fields).res = (c.hdel s hash fields).1) := by
  refine ⟨?_, ?_, ?_, ?_⟩
  · intro h
    simp [RedisService.hset, h]
  · intro h
    rcases hc : c.hset s hash field (value.map codec.ser) with ⟨r, s2⟩
    rcases r with e | n <;> simp [RedisService.hset, h, hc]
  · rcases hc : c.hmset s hash values with ⟨r, s2⟩
    rcases r with e | u <;> simp [RedisService.hmset, hc]
  · rcases hc : c.hdel s hash fields with ⟨r, s2⟩
    rcases r with e | n <;> simp [RedisService.hdel, hc]

/-- C2 witness: the nullable no-op on an arbitrary client, and the raised
store exception surfacing from each of the three mutations. -/
theorem c2_witness :
    (RedisService.hset boomClient simpleCodec () "h" "f" (some .null) false
      = ⟨.ok 0, [], ()⟩) ∧
    (RedisService.hset boomClient simpleCodec () "h" "f" (some .null) true).res
      = .error boom ∧
    (RedisService.hmset boomClient () "h" ["f", "v"]).res = .error boom ∧
    (RedisService.hdel boomClient () "h" ["f"]).res = .error boom := by
  have h1 := c2_fail_hard_hash_mutations boomClient simpleCodec () "h" "f"
    (some .null) false ["f", "v"] ["f"]
  have h2 := c2_fail_hard_hash_mutations boomClient simpleCodec () "h" "f"
    (some .null) true ["f", "v"] ["f"]
  exact ⟨h1.1 rfl, (h2.2.1 rfl).trans rfl, h2.2.2.1.trans rfl, h2.2.2.2.trans rfl⟩

/-- Storing under a key makes that key's text retrievable. -/
theorem lookupKV_insertKV_self (s : List (String × String)) (k v : String) :
    lookupKV (insertKV s k v) k = some v := by
  simp [lookupKV, insertKV, List.lookup]

/-- C6: a provided ttl `≤ 0` makes `set` a pure no-op for every client —
result `undefined`, no log, store state untouched — so on the reference
store a previously stored value for the key is still returned by `get`; the
ttl is neither a delete nor a write without expiry. -/
theorem c6_ttl_nonpos_noop {σ : Type} (c : RedisClient σ) (codec : Codec)
    (s : σ) (ms : List (String × String)) (key : String) (value : Option JVal)
    (t : Int) (cacheNullable : Bool) (ht : t ≤ 0) :
    RedisService.set c codec s key value (some t) cacheNullable = ⟨none, [], s⟩ ∧
    (RedisService.get memClient codec
        (RedisService.set memClient codec ms key value (some t) cacheNullable).st
        key).res
      = (RedisService.get memClient codec ms key).res := by
  have hset : ∀ (σ2 : Type) (c2 : RedisClient σ2) (s2 : σ2),
      RedisService.set c2 codec s2 key value (some t) cacheNullable = ⟨none, [], s2⟩ := by
    intro σ2 c2 s2
    rcases value with _ | jv
    · rfl
    · simp [RedisService.set, ttlNonPos, ht]
  refine ⟨hset σ c s, ?_⟩
  rw [hset _ memClient ms]

/-- C6 witness: `ttl = 0` against a store already holding `"k"`. -/
theorem c6_witness :
    RedisService.set memClient simpleCodec [("k", "1")] "k" (some (.num 2))
      (some 0) true = ⟨none, [], [("k", "1")]⟩ ∧
    (RedisService.get memClient simpleCodec
        (RedisService.set memClient simpleCodec [("k", "1")] "k" (some (.num 2))
          (some 0) true).st "k").res
      = (RedisService.get memClient simpleCodec [("k", "1")] "k").res :=
  c6_ttl_nonpos_noop memClient simpleCodec [("k", "1")] [("k", "1")] "k"
    (some (.num 2)) 0 true (by decide)

/-- C7: `set(k, null, none, cacheNullable := false)` is a pure no-op on every
client (result `undefined`, state untouched), while with
`cacheNullable := true` it writes the serialized `null` under `k` on the
reference store and reports success. -/
theorem c7_set_null_nullability {σ : Type} (c : RedisClient σ) (codec : Codec)
    (s : σ) (ms : List (String × String)) (key : String) :
    RedisService.set c codec s key (some .null) none false = ⟨none, [], s⟩ ∧
    lookupKV (RedisService.set memClient codec ms key (some .null) none true).st key
      = some (codec.ser .null) ∧
    (RedisService.set memClient codec ms key (some .null) none true).res = some () := by
  refine ⟨rfl, ?_, rfl⟩
  have hst : (RedisService.set memClient codec ms key (some .null) none true).st
      = insertKV ms key (codec.ser .null) := rfl
  rw [hst, lookupKV_insertKV_self]

/-- C4: on the reference store, a `set` that performs a write (defined value,
not a non-nullable null, ttl not non-positive) followed by `get` of the same
key returns the value back, given that the codec round-trips it to non-empty
text — which `JSON.stringify`/`JSON.parse` do for every JSON value. -/
theorem c4_set_get_roundtrip (codec : Codec) (s : List (String × String))
    (key : String) (jv : JVal) (ttl : Option Int) (cacheNullable : Bool)
    (hnn : (!cacheNullable && jv.isNull) = false)
    (httl : ttlNonPos ttl = false)
    (hrt : codec.deser (codec.ser jv) = .ok jv)
    (hne : codec.ser jv ≠ "") :
    (RedisService.get memClient codec
      (RedisService.set memClient codec s key (some jv) ttl cacheNullable).st
      key).res = some jv := by
  have hst : (RedisService.set memClient codec s key (some jv) ttl cacheNullable).st
      = insertKV s key (codec.ser jv) := by
    simp [RedisService.set, hnn, httl, memClient]
  rw [hst]
  have hlk : memClient.get (insertKV s key (codec.ser jv)) key
      = (.ok (lookupKV (insertKV s key (codec.ser jv)) key),
         insertKV s key (codec.ser jv)) := rfl
  simp [RedisService.get, hlk, lookupKV_insertKV_self, hne, hrt]

/-- C4 witness: the value 1 round-trips through `set` then `get` under the
concrete codec. -/
theorem c4_witness :
    simpleCodec.deser (simpleCodec.ser (.num 1)) = .ok (.num 1) ∧
    (RedisService.get memClient simpleCodec
      (RedisService.set memClient simpleCodec [] "k" (some (.num 1)) (some 5)
        true).st "k").res = some (.num 1) :=
  ⟨rfl, c4_set_get_roundtrip simpleCodec [] "k" (.num 1) (some 5) true rfl rfl
    rfl (by decide)⟩

/-- One iteration of the scan loop against a page-function client. -/
theorem scanLoop_pageClient_succ (f : String → String → String × List String)
    (pattern : String) (fuel : Nat) (cur : String) (acc : List String) :
    scanLoop (pageClient f) pattern (fuel + 1) () cur acc =
      (if (f cur pattern).1 = "0" then
        some (.ok (acc ++ (f cur pattern).2), ())
      else
        scanLoop (pageClient f) pattern fuel () (f cur pattern).1
          (acc ++ (f cur pattern).2)) := by
  rcases hfc : f cur pattern with ⟨next, keys⟩
  simp [scanLoop, pageClient, hfc]

/-- Running the scan loop from the cursor reached after `j` pages of a chain
that completes after `n = j + (k + 1)` pages collects exactly the keys of the
remaining pages, for any sufficient fuel. -/
theorem scanLoop_chain (f : String → String → String × List String)
    (pattern : String) (n : Nat)
    (hend : cursorAt f pattern n = "0")
    (hmid : ∀ i, 0 < i → i < n → cursorAt f pattern i ≠ "0") :
    ∀ k j fuel acc, j + (k + 1) = n → k + 1 ≤ fuel →
      scanLoop (pageClient f) pattern fuel () (cursorAt f pattern j) acc =
        some (.ok (acc ++ pagesFrom f pattern j (k + 1)), ()) := by
  intro k
  induction k with
  | zero =>
    intro j fuel acc hj hfuel
    obtain ⟨m, rfl⟩ : ∃ m, fuel = m + 1 := ⟨fuel - 1, by omega⟩
    rw [scanLoop_pageClient_succ]
    have hnext : (f (cursorAt f pattern j) pattern).1 = "0" := by
      have h1 : cursorAt f pattern (j + 1) = (f (cursorAt f pattern j) pattern).1 := rfl
      rw [show j + 1 = n from by omega, hend] at h1
      exact h1.symm
    rw [if_pos hnext]
    simp [pagesFrom]
  | succ k ih =>
    intro j fuel acc hj hfuel
    obtain ⟨m, rfl⟩ : ∃ m, fuel = m + 1 := ⟨fuel - 1, by omega⟩
    rw [scanLoop_pageClient_succ]
    have hnext : (f (cursorAt f pattern j) pattern).1 = cursorAt f pattern (j + 1) := rfl
    have hne : (f (cursorAt f pattern j) pattern).1 ≠ "0" := by
      rw [hnext]
      exact hmid (j + 1) (by omega) (by omega)
    rw [if_neg hne, hnext]
    rw [ih (j + 1) m (acc ++ (f (cursorAt f pattern j) pattern).2) (by omega) (by omega)]
    have hp : pagesFrom f pattern j (k + 1 + 1)
        = (f (cursorAt f pattern j) pattern).2 ++ pagesFrom f pattern (j + 1) (k + 1) := rfl
    rw [hp, List.append_assoc]

/-- C5: for every pattern and every page function whose cursor chain from
the initial cursor `"0"` completes with the sentinel `"0"` after `n ≥ 1`
pages, `scan` terminates within the chain length (any fuel `≥ n` suffices)
and returns exactly the concatenation, in page order, of the pages' key
lists. -/
theorem c5_scan_completeness (f : String → String → String × List String)
    (pattern : String) (n : Nat) (hn : 0 < n)
    (hend : cursorAt f pattern n = "0")
    (hmid : ∀ i, 0 < i → i < n → cursorAt f pattern i ≠ "0")
    (fuel : Nat) (hfuel : n ≤ fuel) :
    RedisService.scan (pageClient f) fuel () pattern =
      some (.ok (pagesFrom f pattern 0 n), ()) := by
  obtain ⟨k, rfl⟩ : ∃ k, n = k + 1 := ⟨n - 1, by omega⟩
  have h := scanLoop_chain f pattern (k + 1) hend hmid k 0 fuel [] (by omega) (by omega)
  simpa [RedisService.scan, cursorAt] using h

/-- C5 witness: the spec's 3-page chain `"0" → "17" → "42" → "0"` yields the
concatenation of the three pages within 3 round trips. -/
theorem c5_witness :
    RedisService.scan (pageClient scanPages3) 3 () "p" =
      some (.ok ["a", "b", "c", "d", "e"], ()) := by
  have h := c5_scan_completeness scanPages3 "p" 3 (by decide) (by decide)
    (fun i h1 h2 => by interval_cases i <;> decide) 3 (by decide)
  rw [h]
  rfl

/-- C8: on records each holding a non-null value at the key field, the bulk
encoder produces the flat alternating sequence of each record's key-field
value followed by its serialization — the spec-side encoding — and its
length is twice the number of records. -/
theorem c8_bulk_encode_shape (ser : JVal → String) (values : List JVal)
    (key : String)
    (h : ∀ r ∈ values, ∃ v, r.getField key = some v ∧ v.isNull = false) :
    transformArrayToRedisHash ser values key = specHashBulkEncode ser values key ∧
    (transformArrayToRedisHash ser values key).length = 2 * values.length := by
  induction values with
  | nil => exact ⟨rfl, rfl⟩
  | cons r rest ih =>
    have hrest := ih (fun x hx => h x (List.mem_cons_of_mem r hx))
    refine ⟨?_, ?_⟩
    · simp only [transformArrayToRedisHash, specHashBulkEncode,
        List.flatMap_cons, List.cons_append, List.nil_append]
      rw [hrest.1]
      rfl
    · have h2 := hrest.2
      simp only [transformArrayToRedisHash, List.length_cons] at h2 ⊢
      omega

/-- C8 witness: the spec's example records with key field `id`. -/
theorem c8_witness :
    transformArrayToRedisHash simpleCodec.ser [sampleRec1, sampleRec2] "id" =
      [some (.str "x"), some (.str (simpleCodec.ser sampleRec1)),
       some (.str "y"), some (.str (simpleCodec.ser sampleRec2))] ∧
    (transformArrayToRedisHash simpleCodec.ser [sampleRec1, sampleRec2] "id").length
      = 4 := by
  have hpre : ∀ r ∈ [sampleRec1, sampleRec2],
      ∃ v, r.getField "id" = some v ∧ v.isNull = false := by
    intro r hr
    simp only [List.mem_cons, List.not_mem_nil, or_false] at hr
    rcases hr with rfl | rfl
    · exact ⟨.str "x", rfl, rfl⟩
    · exact ⟨.str "y", rfl, rfl⟩
  have h := c8_bulk_encode_shape simpleCodec.ser [sampleRec1, sampleRec2] "id" hpre
  refine ⟨?_, ?_⟩
  · rw [h.1]
    rfl
  · rw [h.2]
    rfl

/-- C9 counterexample: when the store raises an `Error` during `deleteMany`,
the single log entry carries only the message and the error string — its
metadata contains no pair besides `error`, in particular not the operation's
keys, refuting the claim that every caught failure is reported together with
the operation's key identifiers. -/
theorem c9_counterexample :
    (RedisService.deleteMany boomClient () ["k1", "k2"]).logs =
      [⟨"An error occurred while trying to delete multiple keys from redis cache.",
        [("error", .s "Error: boom")]⟩] ∧
    ∀ entry ∈ (RedisService.deleteMany boomClient () ["k1", "k2"]).logs,
      ∀ p ∈ entry.meta, p.1 = "error" := by
  have hl : (RedisService.deleteMany boomClient () ["k1", "k2"]).logs =
      [⟨"An error occurred while trying to delete multiple keys from redis cache.",
        [("error", .s "Error: boom")]⟩] := rfl
  refine ⟨hl, ?_⟩
  intro entry he p hp
  rw [hl] at he
  simp only [List.mem_singleton] at he
  subst he
  simp only [List.mem_singleton] at hp
  subst hp
  rfl

/-- C9 amended: whenever a facade operation catches a failure that is an
`Error` instance (`get` reports any failure), it emits exactly one log entry
with a human-readable message and the failure's string representation; every
operation except `deleteMany` also includes its key or hash identifiers in
the metadata, while `deleteMany` logs only the error string. -/
theorem c9_failure_logging {σ : Type} (c : RedisClient σ) (codec : Codec)
    (s : σ) (key hash field : String) (keys fields values : List String)
    (value : Option JVal) (jv : JVal) (ttl : Option Int) (cacheNullable : Bool)
    (e : Err) :
    ((c.get s key).1 = .error e →
      (RedisService.get c codec s key).logs =
        [⟨"RedisCache - An error occurred while trying to get from redis cache.",
          [("cacheKey", .s key), ("error", .s e.str)]⟩]) ∧
    ((!cacheNullable && jv.isNull) = false → ttlNonPos ttl = false →
      e.isError = true → (c.set s key (codec.ser jv) ttl).1 = .error e →
      (RedisService.set c codec s key (some jv) ttl cacheNullable).logs =
        [⟨"RedisCache - An error occurred while trying to set in redis cache.",
          [("cacheKey", .s key), ("error", .s e.str)]⟩]) ∧
    (e.isError = true → (c.del s [key]).1 = .error e →
      (RedisService.delete c s key).logs =
        [⟨"RedisCache - An error occurred while trying to delete from redis cache.",
          [("cacheKey", .s key), ("error", .s e.str)]⟩]) ∧
    (e.isError = true → (c.del s keys).1 = .error e →
      (RedisService.deleteMany c s keys).logs =
        [⟨"An error occurred while trying to delete multiple keys from redis cache.",
          [("error", .s e.str)]⟩]) ∧
    (e.isError = true → (c.hget s hash field).1 = .error e →
      (RedisService.hget c codec s hash field).logs =
        [⟨"An error occurred while trying to hget from redis.",
          [("hash", .s hash), ("field", .s field), ("exception", .s e.str)]⟩]) ∧
    (e.isError = true → (c.hmget s hash fields).1 = .error e →
      (RedisService.hmget c codec s hash fields).logs =
        [⟨"An error occurred while trying to hget from redis.",
          [("hash", .s hash), ("fields", .list fields), ("exception", .s e.str)]⟩]) ∧
    (e.isError = true → (c.hgetall s hash).1 = .error e →
      (RedisService.hgetall c codec s hash).logs =
        [⟨"An error occurred while trying to hgetall from redis.",
          [("hash", .s hash), ("exception", .s e.str)]⟩]) ∧
    ((!cacheNullable && isNullish value) = false → e.isError = true →
      (c.hset s hash field (value.map codec.ser)).1 = .error e →
      (RedisService.hset c codec s hash field value cacheNullable).logs =
        [⟨"An error occurred while trying to hset in redis.",
          [("hash", .s hash), ("field", .s field), ("value", .jv value),
           ("exception", .s e.str)]⟩]) ∧
    (e.isError = true → (c.hmset s hash values).1 = .error e →
      (RedisService.hmset c s hash values).logs =
        [⟨"An error occurred while trying to hset in redis.",
          [("hash", .s hash), ("values", .list values), ("exception", .s e.str)]⟩]) ∧
    (e.isError = true → (c.hdel s hash fields).1 = .error e →
      (RedisService.hdel c s hash fields).logs =
        [⟨"An error occurred while trying to hdel in redis.",
          [("hash", .s hash), ("fields", .list fields), ("exception", .s e.str)]⟩]) := by
  refine ⟨?_, ?_, ?_, ?_, ?_, ?_, ?_, ?_, ?_, ?_⟩
  · intro h
    rcases hc : c.get s key with ⟨r, s2⟩
    rw [hc] at h
    simp only at h
    subst h
    simp [RedisService.get, hc]
  · intro h1 h2 he h
    rcases hc : c.set s key (codec.ser jv) ttl with ⟨r, s2⟩
    rw [hc] at h
    simp only at h
    subst h
    simp [RedisService.set, h1, h2, hc, ifErrLog, he]
  · intro he h
    rcases hc : c.del s [key] with ⟨r, s2⟩
    rw [hc] at h
    simp only at h
    subst h
    simp [RedisService.delete, hc, ifErrLog, he]
  · intro he h
    rcases hc : c.del s keys with ⟨r, s2⟩
    rw [hc] at h
    simp only at h
    subst h
    simp [RedisService.deleteMany, hc, ifErrLog, he]
  · intro he h
    rcases hc : c.hget s hash field with ⟨r, s2⟩
    rw [hc] at h
    simp only at h
    subst h
    simp [RedisService.hget, hc, ifErrLog, he]
  · intro he h
    rcases hc : c.hmget s hash fields with ⟨r, s2⟩
    rw [hc] at h
    simp only at h
    subst h
    simp [RedisService.hmget, hc, ifErrLog, he]
  · intro he h
    rcases hc : c.hgetall s hash with ⟨r, s2⟩
    rw [hc] at h
    simp only at h
    subst h
    simp [RedisService.hgetall, hc, ifErrLog, he]
  · intro h1 he h
    rcases hc : c.hset s hash field (value.map codec.ser) with ⟨r, s2⟩
    rw [hc] at h
    simp only at h
    subst h
    simp [RedisService.hset, h1, hc, ifErrLog, he]
  · intro he h
    rcases hc : c.hmset s hash values with ⟨r, s2⟩
    rw [hc] at h
    simp only at h
    subst h
    simp [RedisService.hmset, hc, ifErrLog, he]
  · intro he h
    rcases hc : c.hdel s hash fields with ⟨r, s2⟩
    rw [hc] at h
    simp only at h
    subst h
    simp [RedisService.hdel, hc, ifErrLog, he]

/-- C9 witness: the always-raising client produces each operation's log
entry. -/
theorem c9_witness :
    (RedisService.get boomClient simpleCodec () "k").logs =
      [⟨"RedisCache - An error occurred while trying to get from redis cache.",
        [("cacheKey", .s "k"), ("error", .s "Error: boom")]⟩] ∧
    (RedisService.set boomClient simpleCodec () "k" (some .null) none true).logs =
      [⟨"RedisCache - An error occurred while trying to set in redis cache.",
        [("cacheKey", .s "k"), ("error", .s "Error: boom")]⟩] ∧
    (RedisService.delete boomClient () "k").logs =
      [⟨"RedisCache - An error occurred while trying to delete from redis cache.",
        [("cacheKey", .s "k"), ("error", .s "Error: boom")]⟩] ∧
    (RedisService.deleteMany boomClient () ["k1", "k2"]).logs =
      [⟨"An error occurred while trying to delete multiple keys from redis cache.",
        [("error", .s "Error: boom")]⟩] ∧
    (RedisService.hget boomClient simpleCodec () "h" "f").logs =
      [⟨"An error occurred while trying to hget from redis.",
        [("hash", .s "h"), ("field", .s "f"), ("exception", .s "Error: boom")]⟩] ∧
    (RedisService.hmget boomClient simpleCodec () "h" ["f1", "f2"]).logs =
      [⟨"An error occurred while trying to hget from redis.",
        [("hash", .s "h"), ("fields", .list ["f1", "f2"]),
         ("exception", .s "Error: boom")]⟩] ∧
    (RedisService.hgetall boomClient simpleCodec () "h").logs =
      [⟨"An error occurred while trying to hgetall from redis.",
        [("hash", .s "h"), ("exception", .s "Error: boom")]⟩] ∧
    (RedisService.hset boomClient simpleCodec () "h" "f" (some .null) true).logs =
      [⟨"An error occurred while trying to hset in redis.",
        [("hash", .s "h"), ("field", .s "f"), ("value", .jv (some .null)),
         ("exception", .s "Error: boom")]⟩] ∧
    (RedisService.hmset boomClient () "h" ["f", "v"]).logs =
      [⟨"An error occurred while trying to hset in redis.",
        [("hash", .s "h"), ("values", .list ["f", "v"]),
         ("exception", .s "Error: boom")]⟩] ∧
    (RedisService.hdel boomClient () "h" ["f1", "f2"]).logs =
      [⟨"An error occurred while trying to hdel in redis.",
        [("hash", .s "h"), ("fields", .list ["f1", "f2"]),
         ("exception", .s "Error: boom")]⟩] := by
  have h := c9_failure_logging boomClient simpleCodec () "k" "h" "f"
    ["k1", "k2"] ["f1", "f2"] ["f", "v"] (some .null) .null none true boom
  refine ⟨h.1 rfl, ?_, h.2.2.1 rfl rfl, h.2.2.2.1 rfl rfl,
    h.2.2.2.2.1 rfl rfl, ?_, h.2.2.2.2.2.2.1 rfl rfl,
    h.2.2.2.2.2.2.2.1 rfl rfl rfl, ?_, h.2.2.2.2.2.2.2.2.2 rfl rfl⟩
  · exact h.2.1 rfl rfl rfl rfl
  · exact h.2.2.2.2.2.1 rfl rfl
  · exact h.2.2.2.2.2.2.2.2.1 rfl rfl

end SdkNestjsRedis
